import Mathlib

/-
Shallow embedding of `src/korean-quiz/src/speech_gen.py`, a batch
text-to-speech script.  The filesystem (the contents of the output
directory) is modelled as a list of path strings; the external TTS client
is a parameter `tts : String → Bool` saying for each text whether the
synthesis call succeeds.  Per-item status lines are modelled by the
`Event` inductive; the list of texts for which a synthesis network call is
issued is collected in `calls`.
-/

namespace SpeechGen

/-- Constant `OUTPUT_DIR = "korean_audio_assets"` from the source. -/
def OUTPUT_DIR : String := "korean_audio_assets"

/-- Constant `VOICE = "ko-KR-SunHiNeural"` from the source. -/
def VOICE : String := "ko-KR-SunHiNeural"

/-- List `basicVowels` from the source. -/
def basicVowels : List String :=
  ["ㅏ", "ㅑ", "ㅓ", "ㅕ", "ㅗ", "ㅛ", "ㅜ", "ㅠ", "ㅡ", "ㅣ"]

/-- List `complexVowels` from the source. -/
def complexVowels : List String :=
  ["ㅐ", "ㅒ", "ㅔ", "ㅖ", "ㅘ", "ㅙ", "ㅚ", "ㅝ", "ㅞ", "ㅟ", "ㅢ"]

/-- List `basicConsonants` from the source. -/
def basicConsonants : List String :=
  ["ㄱ", "ㄴ", "ㄷ", "ㄹ", "ㅁ", "ㅂ", "ㅅ", "ㅇ", "ㅈ", "ㅊ", "ㅋ", "ㅌ", "ㅍ", "ㅎ"]

/-- List `doubleConsonants` from the source. -/
def doubleConsonants : List String :=
  ["ㄲ", "ㄸ", "ㅃ", "ㅆ", "ㅉ"]

/-- List `syllableExamples` from the source. -/
def syllableExamples : List String :=
  ["가", "나", "다", "라", "마", "바", "사", "아", "자", "차", "카", "타", "파", "하",
   "고", "노", "도", "로", "모", "보", "소", "오", "조", "초", "코", "토", "포", "호",
   "구", "누", "두", "루", "무", "부", "수", "우", "주", "추", "쿠", "투", "푸", "후",
   "그", "느", "드", "르", "므", "브", "스", "으", "즈", "츠", "크", "트", "프", "흐",
   "기", "니", "디", "리", "미", "비", "시", "이", "지", "치", "키", "티", "피", "히"]

/-- List `basicSentences` from the source. -/
def basicSentences : List String :=
  ["안녕하세요", "안녕", "감사합니다", "고마워", "제이름은",
   "죄송합니다", "네", "아니요", "안녕히가세요", "안녕히계세요"]

/-- List `koreanNumbers` from the source. -/
def koreanNumbers : List String :=
  ["일", "이", "삼", "사", "오", "육", "칠", "팔", "구", "십"]

/-- The list of category lists, in the order the merge loop iterates them. -/
def categoryLists : List (List String) :=
  [basicVowels, complexVowels, basicConsonants, doubleConsonants,
   syllableExamples, basicSentences, koreanNumbers]

/-- Body of the merge loop: `if item not in seen: all_items.append(item);
seen.add(item)`.  State is the pair `(all_items, seen)`, with the `seen`
set modelled as a list. -/
def mergeStep (st : List String × List String) (item : String) :
    List String × List String :=
  if item ∈ st.2 then st else (st.1 ++ [item], item :: st.2)

/-- The nested `for item_list in [...]: for item in item_list:` loop,
starting from `all_items = []`, `seen = set()`. -/
def mergeLists (lists : List (List String)) : List String × List String :=
  lists.foldl (fun st l => l.foldl mergeStep st) ([], [])

/-- The registry `all_items` built at module load. -/
def all_items : List String := (mergeLists categoryLists).1

/-- Whether a path is absolute in the POSIX sense (starts with a slash);
used to model `os.path.join`. -/
def isAbsPath (s : String) : Bool := s.data.head? == some '/'

/-- POSIX `os.path.join(d, s)` for a directory `d` that is nonempty and
does not end with a slash: an absolute second component discards `d`,
otherwise the parts are joined with a slash. -/
def osPathJoin (d s : String) : String := if isAbsPath s then s else d ++ "/" ++ s

/-- The output path `os.path.join(OUTPUT_DIR, f"{text}.mp3")` used by both
`file_exists` and `generate_audio`. -/
def output_path (text : String) : String := osPathJoin OUTPUT_DIR (text ++ ".mp3")

/-- `file_exists(text)`: `Path(output_path).exists()`, against the list
`fs` of paths currently present on disk. -/
def file_exists (fs : List String) (text : String) : Bool :=
  output_path text ∈ fs

/-- Effect of `communicate.save(output_path)` succeeding: the output path
is now present on disk (appended if new, overwritten in place if it was
already there). -/
def writeFile (fs : List String) (text : String) : List String :=
  if output_path text ∈ fs then fs else fs ++ [output_path text]

/-- Per-item status line, one constructor per distinct message printed by
the script for an item: `Skipping ... (already exists)`,
`Generated ...`, `Regenerated ...`, `Error generating ...`. -/
inductive Event where
  | skippedMsg (text : String)
  | generatedMsg (text : String)
  | regeneratedMsg (text : String)
  | errorMsg (text : String)
deriving DecidableEq, Repr

/-- Result of one `generate_audio` call: the returned boolean, the
directory contents afterwards, the status line printed, and the texts for
which a TTS synthesis network call was issued (empty or singleton). -/
structure GenResult where
  retval : Bool
  fs : List String
  event : Event
  calls : List String
deriving DecidableEq, Repr

/-- `generate_audio(text, force)`.  If the file exists and `force` is not
set, it prints a skip line and returns `True` without any network call.
Otherwise it issues the synthesis call: on success the file is written and
the status line is `Regenerated` when `file_exists(text) and force` holds
after the save (the save itself makes `file_exists` true, so this is just
`force`), else `Generated`; on an exception it prints an error line and
returns `False`. -/
def generate_audio (tts : String → Bool) (fs : List String) (text : String)
    (force : Bool) : GenResult :=
  if file_exists fs text && !force then
    { retval := true, fs := fs, event := Event.skippedMsg text, calls := [] }
  else if tts text then
    let fs2 := writeFile fs text
    { retval := true, fs := fs2,
      event := if file_exists fs2 text && force then Event.regeneratedMsg text
               else Event.generatedMsg text,
      calls := [text] }
  else
    { retval := false, fs := fs, event := Event.errorMsg text, calls := [text] }

/-- The three counters of `main`: `generated`, `skipped`, `errors`. -/
structure Tally where
  generated : Nat
  skipped : Nat
  errors : Nat
deriving DecidableEq, Repr

/-- State threaded through `main`'s loop: the tally, the directory
contents, the texts passed to the TTS client so far, the items whose skip
line was printed by the loop's own existence check, the status events of
the `generate_audio` invocations made so far, and the items processed so
far. -/
structure RunState where
  tally : Tally
  fs : List String
  calls : List String
  mainSkips : List String
  genEvents : List Event
  processed : List String
deriving DecidableEq, Repr

/-- One iteration of `main`'s `for i, text in enumerate(all_items, 1)`
loop: either the loop's own `file_exists(text) and not args.force` check
fires and the item is tallied skipped, or `generate_audio` is awaited and
its boolean return is tallied as generated or as an error. -/
def stepItem (tts : String → Bool) (force : Bool) (st : RunState)
    (text : String) : RunState :=
  if file_exists st.fs text && !force then
    { st with
      tally := { st.tally with skipped := st.tally.skipped + 1 },
      mainSkips := st.mainSkips ++ [text],
      processed := st.processed ++ [text] }
  else
    let r := generate_audio tts st.fs text force
    { tally :=
        if r.retval then { st.tally with generated := st.tally.generated + 1 }
        else { st.tally with errors := st.tally.errors + 1 },
      fs := r.fs,
      calls := st.calls ++ r.calls,
      mainSkips := st.mainSkips,
      genEvents := st.genEvents ++ [r.event],
      processed := st.processed ++ [text] }

/-- The whole item loop of `main`. -/
def runLoop (tts : String → Bool) (force : Bool) (items : List String)
    (st : RunState) : RunState :=
  items.foldl (stepItem tts force) st

/-- Loop state at entry of the loop: zero tallies, the directory contents
`fs0` found on disk, and empty logs. -/
def initState (fs0 : List String) : RunState :=
  { tally := { generated := 0, skipped := 0, errors := 0 },
    fs := fs0, calls := [], mainSkips := [], genEvents := [], processed := [] }

/-- Predicate for `Path(OUTPUT_DIR).glob('*.mp3')`: a directory entry that
the summary's final count includes. -/
def isOutputMp3 (p : String) : Bool :=
  p.startsWith (OUTPUT_DIR ++ "/") && p.endsWith ".mp3"

/-- `len(list(Path(OUTPUT_DIR).glob('*.mp3')))`: the number of `.mp3`
files actually present in the output directory. -/
def countMp3 (fs : List String) : Nat := (fs.filter isOutputMp3).length

/-- The summary block printed at the end of `main`, plus the process exit
status: total item count, the three tallies, the actual file count
re-read from the directory, whether the connectivity advisory line is
printed, and the exit code (the script never calls `sys.exit` and never
raises outside the per-item handler, so it always exits with the default
status 0). -/
structure Summary where
  total : Nat
  generated : Nat
  skipped : Nat
  errors : Nat
  actualFiles : Nat
  advisory : Bool
  exitCode : Nat
deriving DecidableEq, Repr

/-- The loop state when `main()`'s item loop finishes, for a run against
initial directory contents `fs0` with the given force flag. -/
def mainState (tts : String → Bool) (fs0 : List String) (force : Bool) :
    RunState :=
  runLoop tts force all_items (initState fs0)

/-- `main()`: the summary block printed after the loop, built from the
final loop state; the actual-file count is re-read from the directory
contents, not taken from the tallies. -/
def mainSummary (tts : String → Bool) (fs0 : List String) (force : Bool) :
    Summary :=
  { total := all_items.length,
    generated := (mainState tts fs0 force).tally.generated,
    skipped := (mainState tts fs0 force).tally.skipped,
    errors := (mainState tts fs0 force).tally.errors,
    actualFiles := countMp3 (mainState tts fs0 force).fs,
    advisory := (mainState tts fs0 force).tally.errors != 0,
    exitCode := 0 }

/-- Modelled from the spec: the concatenation of the category lists "with
every later exact-string duplicate removed", keeping the first occurrence
of each distinct string. -/
def dedupFirst : List String → List String
  | [] => []
  | x :: xs => x :: dedupFirst (xs.filter (fun y => y != x))
termination_by l => l.length
decreasing_by
  exact Nat.lt_succ_of_le (List.length_filter_le _ _)

/-- Whether an event is a successful-synthesis status line (`Generated` or
`Regenerated`). -/
def isGenEvent : Event → Bool
  | Event.generatedMsg _ => true
  | Event.regeneratedMsg _ => true
  | _ => false

/-- Helper: the items of `l` not in `seen`, first occurrences only, in
order; the recursion shape of the source's merge loop. -/
def dedupSeen (seen : List String) : List String → List String
  | [] => []
  | x :: xs => if x ∈ seen then dedupSeen seen xs else x :: dedupSeen (x :: seen) xs

theorem foldl_mergeStep_eq (l : List String) :
    ∀ (acc seen : List String),
      (l.foldl mergeStep (acc, seen)).1 = acc ++ dedupSeen seen l := by
  induction l with
  | nil => intro acc seen; simp [dedupSeen]
  | cons x xs ih =>
    intro acc seen
    by_cases hx : x ∈ seen
    · simp [mergeStep, dedupSeen, hx, ih]
    · simp [mergeStep, dedupSeen, hx, ih]

theorem dedupSeen_eq_dedupFirst (l : List String) :
    ∀ seen : List String,
      dedupSeen seen l = dedupFirst (l.filter (fun y => !decide (y ∈ seen))) := by
  induction l with
  | nil => intro seen; simp [dedupSeen, dedupFirst]
  | cons x xs ih =>
    intro seen
    by_cases hx : x ∈ seen
    · simp [dedupSeen, hx, ih, List.filter_cons]
    · have hstep : dedupFirst (x :: List.filter (fun y => !decide (y ∈ seen)) xs)
          = x :: dedupFirst ((List.filter (fun y => !decide (y ∈ seen)) xs).filter
              (fun y => y != x)) := by
        rw [dedupFirst]
      have hL : dedupSeen seen (x :: xs) = x :: dedupSeen (x :: seen) xs := by
        simp [dedupSeen, hx]
      have hR : List.filter (fun y => !decide (y ∈ seen)) (x :: xs)
          = x :: List.filter (fun y => !decide (y ∈ seen)) xs := by
        simp [List.filter_cons, hx]
      rw [hL, hR, hstep, List.filter_filter, ih]
      congr 2
      apply List.filter_congr
      intro y _
      by_cases hyx : y = x <;> by_cases hys : y ∈ seen <;>
        simp [hyx, hys, List.mem_cons]

theorem all_items_eq_dedupFirst_flatten :
    all_items = dedupFirst categoryLists.flatten := by
  have h1 : all_items = (categoryLists.flatten.foldl mergeStep ([], [])).1 := by
    simp [all_items, mergeLists, List.foldl_flatten]
  have h2 : List.filter (fun y => !decide (y ∈ ([] : List String))) categoryLists.flatten
      = categoryLists.flatten := by
    rw [List.filter_congr (q := fun _ => true) (fun y _ => by simp), List.filter_true]
  rw [h1, foldl_mergeStep_eq, dedupSeen_eq_dedupFirst, List.nil_append, h2]

theorem mem_dedupFirst {a : String} : ∀ {l : List String}, a ∈ dedupFirst l → a ∈ l := by
  intro l
  induction l using dedupFirst.induct with
  | case1 => simp [dedupFirst]
  | case2 x xs ih =>
    simp only [dedupFirst, List.mem_cons]
    rintro (rfl | h)
    · exact Or.inl rfl
    · exact Or.inr (List.mem_of_mem_filter (ih h))

theorem nodup_dedupFirst : ∀ (l : List String), (dedupFirst l).Nodup := by
  intro l
  induction l using dedupFirst.induct with
  | case1 => simp [dedupFirst]
  | case2 x xs ih =>
    simp only [dedupFirst, List.nodup_cons]
    refine ⟨fun hmem => ?_, ih⟩
    have := List.of_mem_filter (mem_dedupFirst hmem)
    simp at this

theorem runLoop_nil (tts : String → Bool) (force : Bool) (st : RunState) :
    runLoop tts force [] st = st := rfl

theorem runLoop_cons (tts : String → Bool) (force : Bool) (x : String)
    (xs : List String) (st : RunState) :
    runLoop tts force (x :: xs) st = runLoop tts force xs (stepItem tts force st x) := rfl

theorem generate_audio_guard_neg (tts : String → Bool) (fs : List String)
    (text : String) (force : Bool)
    (h : (file_exists fs text && !force) = false) :
    generate_audio tts fs text force =
      if tts text then
        { retval := true, fs := writeFile fs text,
          event := if file_exists (writeFile fs text) text && force
                   then Event.regeneratedMsg text else Event.generatedMsg text,
          calls := [text] }
      else { retval := false, fs := fs, event := Event.errorMsg text,
             calls := [text] } := by
  simp [generate_audio, h]

theorem generate_audio_fs_mono (tts : String → Bool) (fs : List String)
    (text : String) (force : Bool) {p : String} (h : p ∈ fs) :
    p ∈ (generate_audio tts fs text force).fs := by
  by_cases hg : (file_exists fs text && !force) = true
  · simp [generate_audio, hg, h]
  · rw [generate_audio_guard_neg tts fs text force (by simpa using hg)]
    by_cases ht : tts text = true
    · simp only [ht, if_pos rfl]
      by_cases hw : output_path text ∈ fs <;>
        simp [writeFile, hw, h, List.mem_append]
    · simp [ht, h]

theorem generate_audio_calls_neg (tts : String → Bool) (fs : List String)
    (text : String) (force : Bool)
    (h : (file_exists fs text && !force) = false) :
    (generate_audio tts fs text force).calls = [text] := by
  rw [generate_audio_guard_neg tts fs text force h]
  by_cases ht : tts text = true <;> simp [ht]

theorem generate_audio_retval_neg (tts : String → Bool) (fs : List String)
    (text : String) (force : Bool)
    (h : (file_exists fs text && !force) = false) :
    (generate_audio tts fs text force).retval = tts text := by
  rw [generate_audio_guard_neg tts fs text force h]
  by_cases ht : tts text = true <;> simp [ht]

theorem generate_audio_event_neg (tts : String → Bool) (fs : List String)
    (text : String) (force : Bool)
    (h : (file_exists fs text && !force) = false) :
    (∀ t, (generate_audio tts fs text force).event ≠ Event.skippedMsg t) ∧
    isGenEvent (generate_audio tts fs text force).event
      = (generate_audio tts fs text force).retval := by
  rw [generate_audio_guard_neg tts fs text force h]
  by_cases ht : tts text = true
  · by_cases hf : (file_exists (writeFile fs text) text && force) = true <;>
      simp [ht, hf, isGenEvent]
  · simp [ht, isGenEvent]

theorem stepItem_pos (tts : String → Bool) (force : Bool) (st : RunState)
    (text : String) (h : (file_exists st.fs text && !force) = true) :
    stepItem tts force st text =
      { st with
        tally := { st.tally with skipped := st.tally.skipped + 1 },
        mainSkips := st.mainSkips ++ [text],
        processed := st.processed ++ [text] } := by
  simp [stepItem, h]

theorem stepItem_neg (tts : String → Bool) (force : Bool) (st : RunState)
    (text : String) (h : (file_exists st.fs text && !force) = false) :
    stepItem tts force st text =
      { tally :=
          if (generate_audio tts st.fs text force).retval then
            { st.tally with generated := st.tally.generated + 1 }
          else { st.tally with errors := st.tally.errors + 1 },
        fs := (generate_audio tts st.fs text force).fs,
        calls := st.calls ++ (generate_audio tts st.fs text force).calls,
        mainSkips := st.mainSkips,
        genEvents := st.genEvents ++ [(generate_audio tts st.fs text force).event],
        processed := st.processed ++ [text] } := by
  simp [stepItem, h]

theorem stepItem_fs_mono (tts : String → Bool) (force : Bool) (st : RunState)
    (text : String) {p : String} (h : p ∈ st.fs) :
    p ∈ (stepItem tts force st text).fs := by
  by_cases hg : (file_exists st.fs text && !force) = true
  · rw [stepItem_pos tts force st text hg]
    exact h
  · rw [stepItem_neg tts force st text (by simpa using hg)]
    exact generate_audio_fs_mono tts st.fs text force h

theorem runLoop_fs_mono (tts : String → Bool) (force : Bool)
    (items : List String) {p : String} :
    ∀ st : RunState, p ∈ st.fs → p ∈ (runLoop tts force items st).fs := by
  induction items with
  | nil => intro st h; exact h
  | cons x xs ih =>
    intro st h
    rw [runLoop_cons]
    exact ih _ (stepItem_fs_mono tts force st x h)

theorem stepItem_tally_sum (tts : String → Bool) (force : Bool) (st : RunState)
    (text : String) :
    (stepItem tts force st text).tally.generated
      + (stepItem tts force st text).tally.skipped
      + (stepItem tts force st text).tally.errors
    = st.tally.generated + st.tally.skipped + st.tally.errors + 1 := by
  by_cases hg : (file_exists st.fs text && !force) = true
  · rw [stepItem_pos tts force st text hg]
    simp only []
    omega
  · rw [stepItem_neg tts force st text (by simpa using hg)]
    cases hr : (generate_audio tts st.fs text force).retval <;> simp [hr] <;> omega

theorem runLoop_tally_sum (tts : String → Bool) (force : Bool)
    (items : List String) :
    ∀ st : RunState,
      (runLoop tts force items st).tally.generated
        + (runLoop tts force items st).tally.skipped
        + (runLoop tts force items st).tally.errors
      = st.tally.generated + st.tally.skipped + st.tally.errors + items.length := by
  induction items with
  | nil => intro st; rw [runLoop_nil]; simp
  | cons x xs ih =>
    intro st
    rw [runLoop_cons]
    have h1 := ih (stepItem tts force st x)
    have h2 := stepItem_tally_sum tts force st x
    simp only [List.length_cons]
    omega

theorem runLoop_calls_true (tts : String → Bool) (items : List String) :
    ∀ st : RunState, (runLoop tts true items st).calls = st.calls ++ items := by
  induction items with
  | nil => intro st; rw [runLoop_nil]; simp
  | cons x xs ih =>
    intro st
    have hg : (file_exists st.fs x && !true) = false := by simp
    rw [runLoop_cons, ih, stepItem_neg tts true st x hg,
      generate_audio_calls_neg tts st.fs x true hg]
    simp

theorem runLoop_processed (tts : String → Bool) (force : Bool)
    (items : List String) :
    ∀ st : RunState, (runLoop tts force items st).processed = st.processed ++ items := by
  induction items with
  | nil => intro st; rw [runLoop_nil]; simp
  | cons x xs ih =>
    intro st
    rw [runLoop_cons, ih]
    by_cases hg : (file_exists st.fs x && !force) = true
    · rw [stepItem_pos tts force st x hg]
      simp
    · rw [stepItem_neg tts force st x (by simpa using hg)]
      simp

theorem stepItem_mainSkips_mono (tts : String → Bool) (force : Bool)
    (st : RunState) (text : String) {s : String} (h : s ∈ st.mainSkips) :
    s ∈ (stepItem tts force st text).mainSkips := by
  by_cases hg : (file_exists st.fs text && !force) = true
  · rw [stepItem_pos tts force st text hg]
    simp [h]
  · rw [stepItem_neg tts force st text (by simpa using hg)]
    exact h

theorem runLoop_mainSkips_mono (tts : String → Bool) (force : Bool)
    (items : List String) :
    ∀ (st : RunState) {s : String}, s ∈ st.mainSkips →
      s ∈ (runLoop tts force items st).mainSkips := by
  induction items with
  | nil => intro st s h; exact h
  | cons x xs ih =>
    intro st s h
    rw [runLoop_cons]
    exact ih _ (stepItem_mainSkips_mono tts force st x h)

theorem runLoop_calls_false (tts : String → Bool) (items : List String) :
    ∀ (st : RunState) (text : String), file_exists st.fs text = true →
      text ∉ st.calls → text ∉ (runLoop tts false items st).calls := by
  induction items with
  | nil => intro st text _ hc; rw [runLoop_nil]; exact hc
  | cons x xs ih =>
    intro st text hex hc
    rw [runLoop_cons]
    by_cases hg : (file_exists st.fs x && !false) = true
    · apply ih _ _ ?hex2 ?hc2
      case hex2 => rw [stepItem_pos tts false st x hg]; exact hex
      case hc2 => rw [stepItem_pos tts false st x hg]; exact hc
    · have hgf : (file_exists st.fs x && !false) = false := by simpa using hg
      have hxt : x ≠ text := by
        intro he
        rw [he] at hgf
        simp [hex] at hgf
      apply ih _ _ ?hex3 ?hc3
      case hex3 =>
        rw [stepItem_neg tts false st x hgf]
        have hmem : output_path text ∈ (generate_audio tts st.fs x false).fs :=
          generate_audio_fs_mono tts st.fs x false
            (by simpa [file_exists] using hex)
        simpa [file_exists] using hmem
      case hc3 =>
        rw [stepItem_neg tts false st x hgf,
          generate_audio_calls_neg tts st.fs x false hgf]
        simp only [List.mem_append, List.mem_singleton, not_or]
        exact ⟨hc, fun he => hxt he.symm⟩

theorem runLoop_mem_mainSkips (tts : String → Bool) (items : List String) :
    ∀ (st : RunState) (text : String), text ∈ items →
      file_exists st.fs text = true →
      text ∈ (runLoop tts false items st).mainSkips := by
  induction items with
  | nil => intro st text h; simp at h
  | cons x xs ih =>
    intro st text hmem hex
    rw [runLoop_cons]
    rcases List.mem_cons.mp hmem with rfl | hmem2
    · have hg : (file_exists st.fs text && !false) = true := by simp [hex]
      apply runLoop_mainSkips_mono
      rw [stepItem_pos tts false st text hg]
      simp
    · apply ih _ _ hmem2
      have hmemfs : output_path text ∈ (stepItem tts false st x).fs :=
        stepItem_fs_mono tts false st x (by simpa [file_exists] using hex)
      simpa [file_exists] using hmemfs

theorem runLoop_skipped_eq (tts : String → Bool) (force : Bool)
    (items : List String) :
    ∀ st : RunState, st.tally.skipped = st.mainSkips.length →
      (runLoop tts force items st).tally.skipped
        = (runLoop tts force items st).mainSkips.length := by
  induction items with
  | nil => intro st h; rw [runLoop_nil]; exact h
  | cons x xs ih =>
    intro st h
    rw [runLoop_cons]
    apply ih
    by_cases hg : (file_exists st.fs x && !force) = true
    · rw [stepItem_pos tts force st x hg]
      simp [h]
    · rw [stepItem_neg tts force st x (by simpa using hg)]
      cases hr : (generate_audio tts st.fs x force).retval <;> simp [hr, h]

theorem runLoop_errors_eq (tts : String → Bool) (force : Bool)
    (items : List String) :
    ∀ st : RunState, st.tally.errors = st.calls.countP (fun t => !(tts t)) →
      (runLoop tts force items st).tally.errors
        = (runLoop tts force items st).calls.countP (fun t => !(tts t)) := by
  induction items with
  | nil => intro st h; rw [runLoop_nil]; exact h
  | cons x xs ih =>
    intro st h
    rw [runLoop_cons]
    apply ih
    by_cases hg : (file_exists st.fs x && !force) = true
    · rw [stepItem_pos tts force st x hg]
      exact h
    · have hgf : (file_exists st.fs x && !force) = false := by simpa using hg
      rw [stepItem_neg tts force st x hgf,
        generate_audio_calls_neg tts st.fs x force hgf,
        generate_audio_retval_neg tts st.fs x force hgf]
      cases ht : tts x <;> simp [List.countP_append, List.countP_cons, ht, h]

theorem runLoop_genEvents_inv (tts : String → Bool) (force : Bool)
    (items : List String) :
    ∀ st : RunState, (∀ t, Event.skippedMsg t ∉ st.genEvents) →
      st.tally.generated = st.genEvents.countP isGenEvent →
      (∀ t, Event.skippedMsg t ∉ (runLoop tts force items st).genEvents) ∧
      (runLoop tts force items st).tally.generated
        = (runLoop tts force items st).genEvents.countP isGenEvent := by
  induction items with
  | nil => intro st h1 h2; rw [runLoop_nil]; exact ⟨h1, h2⟩
  | cons x xs ih =>
    intro st h1 h2
    rw [runLoop_cons]
    by_cases hg : (file_exists st.fs x && !force) = true
    · rw [stepItem_pos tts force st x hg]
      exact ih _ h1 h2
    · have hgf : (file_exists st.fs x && !force) = false := by simpa using hg
      have hev := generate_audio_event_neg tts st.fs x force hgf
      rw [stepItem_neg tts force st x hgf]
      apply ih
      · intro t
        simp only [List.mem_append, List.mem_singleton]
        rintro (hmem | hmem)
        · exact h1 t hmem
        · exact hev.1 t hmem.symm
      · have hiso := hev.2
        cases hr : (generate_audio tts st.fs x force).retval <;> rw [hr] at hiso <;>
          simp [hr, List.countP_append, List.countP_cons, hiso, h2]

theorem append_mp3_inj {t1 t2 : String} (h : t1 ++ ".mp3" = t2 ++ ".mp3") :
    t1 = t2 := by
  have hd := congrArg String.data h
  rw [String.data_append, String.data_append] at hd
  exact String.ext (List.append_cancel_right hd)

theorem join_not_abs (s : String) :
    isAbsPath (OUTPUT_DIR ++ "/" ++ s) = false := by
  have hk : OUTPUT_DIR.data = 'k' :: "orean_audio_assets".data := rfl
  unfold isAbsPath
  rw [String.data_append, String.data_append, hk, List.cons_append,
    List.cons_append, List.head?_cons]
  decide

theorem output_path_injective : Function.Injective output_path := by
  intro t1 t2 h
  unfold output_path osPathJoin at h
  by_cases h1 : isAbsPath (t1 ++ ".mp3") = true
  · by_cases h2 : isAbsPath (t2 ++ ".mp3") = true
    · rw [if_pos h1, if_pos h2] at h
      exact append_mp3_inj h
    · rw [if_pos h1, if_neg h2] at h
      exfalso
      have hcontra := join_not_abs (t2 ++ ".mp3")
      rw [← h, h1] at hcontra
      simp at hcontra
  · by_cases h2 : isAbsPath (t2 ++ ".mp3") = true
    · rw [if_neg h1, if_pos h2] at h
      exfalso
      have hcontra := join_not_abs (t1 ++ ".mp3")
      rw [h, h2] at hcontra
      simp at hcontra
    · rw [if_neg h1, if_neg h2] at h
      have hd := congrArg String.data h
      rw [String.data_append, String.data_append] at hd
      have hs : (t1 ++ ".mp3").data = (t2 ++ ".mp3").data :=
        List.append_cancel_left hd
      exact append_mp3_inj (String.ext hs)

theorem file_exists_writeFile_self (fs : List String) (t : String) :
    file_exists (writeFile fs t) t = true := by
  by_cases hmem : output_path t ∈ fs <;>
    simp [file_exists, writeFile, hmem]

theorem file_exists_writeFile_other (fs : List String) (t1 t2 : String)
    (hne : t1 ≠ t2) :
    file_exists (writeFile fs t1) t2 = file_exists fs t2 := by
  have hp : output_path t1 ≠ output_path t2 := fun he => hne (output_path_injective he)
  by_cases hmem : output_path t1 ∈ fs
  · simp [writeFile, hmem]
  · have hne2 : output_path t2 ≠ output_path t1 := fun he => hp he.symm
    simp only [writeFile, if_neg hmem, file_exists]
    simp [List.mem_append, hne2]

set_option maxRecDepth 40000

theorem mainState_eq (tts : String → Bool) (fs0 : List String) (force : Bool) :
    mainState tts fs0 force = runLoop tts force all_items (initState fs0) := rfl

/-- C1: for every run with `force = false`, a registry item whose output
file already exists in the output directory before the run is never
passed to the TTS synthesis client (it never appears in the run's call
list), its skip line is printed by the main loop, and the skipped tally
counts exactly the items for which the main loop printed a skip line. -/
theorem claim_c1_preexisting_never_called (tts : String → Bool)
    (fs0 : List String) (text : String) (hmem : text ∈ all_items)
    (hex : file_exists fs0 text = true) :
    text ∉ (mainState tts fs0 false).calls ∧
    text ∈ (mainState tts fs0 false).mainSkips ∧
    (mainState tts fs0 false).tally.skipped
      = (mainState tts fs0 false).mainSkips.length := by
  rw [mainState_eq]
  refine ⟨?_, ?_, ?_⟩
  · exact runLoop_calls_false tts all_items (initState fs0) text hex
      (by simp [initState])
  · exact runLoop_mem_mainSkips tts all_items (initState fs0) text hmem hex
  · exact runLoop_skipped_eq tts false all_items (initState fs0) rfl

/-- Witness for C1: the item `ㅏ` with its output file already on disk is
never passed to the synthesis client when `force = false`. -/
theorem claim_c1_witness :
    ("ㅏ" : String) ∈ all_items ∧
    file_exists [output_path "ㅏ"] "ㅏ" = true ∧
    ("ㅏ" : String) ∉ (mainState (fun _ => true) [output_path "ㅏ"] false).calls :=
  ⟨by decide, by decide,
    (claim_c1_preexisting_never_called (fun _ => true) [output_path "ㅏ"] "ㅏ"
      (by decide) (by decide)).1⟩

/-- C2: for every run with `force = true`, the list of texts passed to the
TTS synthesis client is exactly the whole registry, whatever files exist
beforehand. -/
theorem claim_c2_force_calls_all (tts : String → Bool) (fs0 : List String) :
    (mainState tts fs0 true).calls = all_items := by
  rw [mainState_eq, runLoop_calls_true]
  rfl

/-- C3: the registry `all_items` equals the concatenation of the seven
category lists with every later exact-string duplicate removed (first-seen
order), and it contains no duplicate, hence each distinct text exactly
once. -/
theorem claim_c3_registry_first_seen_dedup :
    all_items = dedupFirst (basicVowels ++ complexVowels ++ basicConsonants
      ++ doubleConsonants ++ syllableExamples ++ basicSentences ++ koreanNumbers)
    ∧ all_items.Nodup := by
  have hflat : categoryLists.flatten
      = basicVowels ++ complexVowels ++ basicConsonants ++ doubleConsonants
        ++ syllableExamples ++ basicSentences ++ koreanNumbers := by
    simp [categoryLists]
  constructor
  · rw [all_items_eq_dedupFirst_flatten, hflat]
  · rw [all_items_eq_dedupFirst_flatten]
    exact nodup_dedupFirst _

/-- C4: in every run, the three counters partition the registry:
`generated + skipped + errors` equals the registry size. -/
theorem claim_c4_tally_partition (tts : String → Bool) (fs0 : List String)
    (force : Bool) :
    (mainState tts fs0 force).tally.generated
      + (mainState tts fs0 force).tally.skipped
      + (mainState tts fs0 force).tally.errors = all_items.length := by
  rw [mainState_eq, runLoop_tally_sum tts force all_items (initState fs0)]
  have h0 : (initState fs0).tally = { generated := 0, skipped := 0, errors := 0 } := rfl
  rw [h0]
  show 0 + 0 + 0 + all_items.length = all_items.length
  omega

/-- C5: per-item failures never abort the batch: every registry item is
processed in every run, whatever the synthesis client does, and the failed
tally equals the number of synthesis calls for which the client raised an
error. -/
theorem claim_c5_failures_do_not_abort (tts : String → Bool)
    (fs0 : List String) (force : Bool) :
    (mainState tts fs0 force).processed = all_items ∧
    (mainState tts fs0 force).tally.errors
      = (mainState tts fs0 force).calls.countP (fun t => !(tts t)) := by
  rw [mainState_eq]
  constructor
  · have h := runLoop_processed tts force all_items (initState fs0)
    simpa [initState] using h
  · exact runLoop_errors_eq tts force all_items (initState fs0) rfl

/-- C6: when the output file for `text` exists and `force` is false,
`generate_audio` reports the skipped outcome: it prints the skip status
line, issues no synthesis network call, leaves the directory unchanged,
and the skipped status is distinct from the generated (and regenerated)
status printed on successful synthesis. -/
theorem claim_c6_skip_without_network (tts : String → Bool)
    (fs : List String) (text : String) (hex : file_exists fs text = true) :
    (generate_audio tts fs text false).event = Event.skippedMsg text ∧
    (generate_audio tts fs text false).calls = [] ∧
    (generate_audio tts fs text false).fs = fs ∧
    (∀ t : String, Event.skippedMsg t ≠ Event.generatedMsg t ∧
      Event.skippedMsg t ≠ Event.regeneratedMsg t) := by
  refine ⟨?_, ?_, ?_, fun t => ⟨fun h => Event.noConfusion h,
    fun h => Event.noConfusion h⟩⟩ <;> simp [generate_audio, hex]

/-- Witness for C6: with `가.mp3` on disk and `force = false`, the call
list of `generate_audio` is empty. -/
theorem claim_c6_witness :
    file_exists [output_path "가"] "가" = true ∧
    (generate_audio (fun _ => true) [output_path "가"] "가" false).calls = [] :=
  ⟨by decide,
    (claim_c6_skip_without_network (fun _ => true) [output_path "가"] "가"
      (by decide)).2.1⟩

/-- C7: the script always terminates with the default success exit status
(0) after the summary, for any client behaviour and any force flag, and a
non-zero failure count only switches on the advisory message. -/
theorem claim_c7_always_exit_zero (tts : String → Bool) (fs0 : List String)
    (force : Bool) :
    (mainSummary tts fs0 force).exitCode = 0 ∧
    ((mainSummary tts fs0 force).advisory = true ↔
      (mainSummary tts fs0 force).errors ≠ 0) := by
  refine ⟨rfl, ?_⟩
  simp only [mainSummary]
  exact bne_iff_ne

/-- C8: the summary of every run reports the registry size as total, the
three tallies, and as the actual file count the number of `.mp3` files
found in the output directory after the run (computed from the directory
contents, not from the tallies). -/
theorem claim_c8_summary_reports (tts : String → Bool) (fs0 : List String)
    (force : Bool) :
    (mainSummary tts fs0 force).total = all_items.length ∧
    (mainSummary tts fs0 force).generated = (mainState tts fs0 force).tally.generated ∧
    (mainSummary tts fs0 force).skipped = (mainState tts fs0 force).tally.skipped ∧
    (mainSummary tts fs0 force).errors = (mainState tts fs0 force).tally.errors ∧
    (mainSummary tts fs0 force).actualFiles = countMp3 (mainState tts fs0 force).fs := by
  refine ⟨?_, ?_, ?_, ?_, ?_⟩ <;> simp only [mainSummary]

/-- C9: in every run, no `generate_audio` invocation made by the main loop
ever produces the skip status (the internal skip branch is unreachable
from the loop, whose own identical check guards the call on the same
directory state), so the generated tally counts exactly the successful
synthesis events. -/
theorem claim_c9_internal_skip_unreachable (tts : String → Bool)
    (fs0 : List String) (force : Bool) :
    (∀ t, Event.skippedMsg t ∉ (mainState tts fs0 force).genEvents) ∧
    (mainState tts fs0 force).tally.generated
      = (mainState tts fs0 force).genEvents.countP isGenEvent := by
  rw [mainState_eq]
  exact runLoop_genEvents_inv tts force all_items (initState fs0)
    (by intro t; simp [initState]) rfl

/-- C10: the text-to-path mapping `output_path`, shared by `file_exists`
and `generate_audio`, is injective, the existence check inspects exactly
the file a synthesis for the same text writes, and writing one item's
file never creates or overwrites the file of a different item. -/
theorem claim_c10_paths_injective :
    Function.Injective output_path ∧
    (∀ (fs : List String) (t : String), file_exists (writeFile fs t) t = true) ∧
    (∀ (fs : List String) (t1 t2 : String), t1 ≠ t2 →
      file_exists (writeFile fs t1) t2 = file_exists fs t2) :=
  ⟨output_path_injective, file_exists_writeFile_self,
    file_exists_writeFile_other⟩

/-- Witness for C10: the registry items `가` and `나` have different
output paths, and writing `가` does not affect the existence check of
`나`. -/
theorem claim_c10_witness :
    output_path "가" ≠ output_path "나" ∧
    file_exists (writeFile [] "가") "나" = file_exists [] "나" :=
  ⟨fun h => absurd (claim_c10_paths_injective.1 h) (by decide),
    claim_c10_paths_injective.2.2 [] "가" "나" (by decide)⟩

end SpeechGen
